import Mathlib

/-!
Shallow embedding of the transfer core of the noisytransfer CLI.

The definitions below are translated from the JavaScript sources:
* `src/transfer/meta-header.js` — `buildMetaHeader` / `stripMetaHeader`;
* `src/transfer/default.js` — `defaultSend` / `defaultRecv` (frames are the
  tagged union `Init/Data/Fin` of the wire format; the channel is modelled as
  the in-order list of frames delivered to the receiver's message handler);
* `src/transfer/pq.js` — `_withAuthReplay` (the replay-safe channel wrapper);
* `src/commands/send.js` — the `totalBytes` guard of `run` and `makeTarPack`;
* `src/commands/recv.js` — `safeRecv` and `attachInitFinTracker`.

Bytes are `Nat` (values < 256 on the real wire; none of the properties here
depend on the bound), byte strings are `List Nat`, and JavaScript numbers are
modelled by `JSNum` (a rational, NaN, or an infinity).
-/

/-- Wire bytes of the MetaHeader magic "NTM1" (`META_MAGIC` in
`src/transfer/meta-header.js`). -/
def META_MAGIC : List Nat := [0x4e, 0x54, 0x4d, 0x31]

/-- `buildMetaHeader(name)`: magic, one length byte, then the name truncated to
its first 255 UTF-8 bytes (`Buffer.from(name).slice(0,255)`).  The name is
modelled as its UTF-8 byte sequence. -/
def buildMetaHeader (name : List Nat) : List Nat :=
  let n := name.take 255
  META_MAGIC ++ [n.length] ++ n

/-- `stripMetaHeader(u8)`: returns the decoded name bytes and the remaining
payload, or `none` when the buffer is shorter than 5 bytes, does not start
with the magic, or is too short for the announced name length. -/
def stripMetaHeader (b : List Nat) : Option (List Nat × List Nat) :=
  if 5 ≤ b.length ∧ b.take 4 = META_MAGIC then
    if 5 + b.getD 4 0 ≤ b.length then
      some ((b.drop 5).take (b.getD 4 0), b.drop (5 + b.getD 4 0))
    else none
  else none

/-- A JavaScript number: a finite rational, NaN, or an infinity. -/
inductive JSNum where
  | num (q : ℚ)
  | nan
  | posInf
  | negInf
deriving DecidableEq

/-- `!Number.isFinite(total) || total <= 0` — the guard at the top of
`defaultSend` (`src/transfer/default.js`). -/
def sendTotalInvalid : JSNum → Bool
  | .num q => decide (q ≤ 0)
  | _ => true

/-- `!Number.isInteger(totalBytes) || totalBytes <= 0` — the guard in
`run` of `src/commands/send.js` (line 83). -/
def runTotalInvalid : JSNum → Bool
  | .num q => !(q.den == 1) || decide (q ≤ 0)
  | _ => true

/-- The stream-frame tagged union (`Init/Data/Fin` of
`@noisytransfer/noisystream/frames`, wire shapes per the spec §6). -/
inductive Frame where
  | init (sessionId : String) (totalBytes : ℚ)
  | data (sessionId : String) (seq : Nat) (chunk : List Nat)
  | fin (sessionId : String) (ok : Bool)
deriving DecidableEq

/-- Receiver-side error codes of `defaultRecv` (`NoisyError` codes). -/
inductive RecvErr where
  | sizeMismatch   -- NC_SIZE_MISMATCH "received bytes differ from announced totalBytes"
  | senderFail     -- NC_SENDER_FAIL "sender reported failure"
  | closedEarly    -- NC_EOF "transport closed before receiving all bytes"
  | protocolErr    -- NC_PROTOCOL "recv error"
  | authFail       -- a handshake failure surfaced to the caller
deriving DecidableEq

/-- Mutable state of `defaultRecv`: `announced` (from INIT), `written`
(bytes written to the sink), `metaSeen`, and the bytes the sink received. -/
structure RecvState where
  announced : Option ℚ
  written : Nat
  metaSeen : Bool
  sinkBytes : List Nat
deriving DecidableEq

def initialRecvState : RecvState := ⟨none, 0, false, []⟩

/-- The DATA branch of `defaultRecv`'s message handler: strip the MetaHeader
from the first data frame if present, then write the (possibly empty)
remainder to the sink and count it. -/
def recvData (st : RecvState) (chunk : List Nat) : RecvState :=
  if st.metaSeen then
    { st with sinkBytes := st.sinkBytes ++ chunk, written := st.written + chunk.length }
  else
    match stripMetaHeader chunk with
    | some (_, d) =>
        { st with metaSeen := true, sinkBytes := st.sinkBytes ++ d,
                  written := st.written + d.length }
    | none =>
        { st with metaSeen := true, sinkBytes := st.sinkBytes ++ chunk,
                  written := st.written + chunk.length }

/-- The FIN branch of `defaultRecv`: reject with `NC_SIZE_MISMATCH` when
`announced != null && announced !== 0 && written !== announced`, else reject
with `NC_SENDER_FAIL` when `fin.ok === false`, else resolve. -/
def finOutcome (st : RecvState) (ok : Bool) : Except RecvErr Unit :=
  match st.announced with
  | some a =>
      if a ≠ 0 ∧ (st.written : ℚ) ≠ a then .error .sizeMismatch
      else if ok = false then .error .senderFail
      else .ok ()
  | none => if ok = false then .error .senderFail else .ok ()

/-- The `onClose` branch of `defaultRecv`: reject with `NC_EOF` when
`announced != null && announced !== 0 && written !== announced`, else
resolve. -/
def closeOutcome (st : RecvState) : Except RecvErr Unit :=
  match st.announced with
  | some a =>
      if a ≠ 0 ∧ (st.written : ℚ) ≠ a then .error .closedEarly
      else .ok ()
  | none => .ok ()

/-- The receive operation either is still pending (no FIN seen, channel open)
or has settled with a result; after FIN the message handler is
unsubscribed, so later frames are ignored. -/
inductive RecvOutcome where
  | pending (st : RecvState)
  | finished (st : RecvState) (result : Except RecvErr Unit)

/-- Process an in-order list of inbound frames through `defaultRecv`'s
message handler.  Frames for a foreign sessionId are ignored; INIT records
`announced`; DATA goes through `recvData`; the first matching FIN settles
the operation and unsubscribes. -/
def processFrames (sid : String) : RecvOutcome → List Frame → RecvOutcome
  | o, [] => o
  | .finished st r, _ :: _ => .finished st r
  | .pending st, f :: rest =>
    match f with
    | .init s t =>
        processFrames sid
          (.pending (if s = sid then { st with announced := some t } else st)) rest
    | .data s _ c =>
        processFrames sid (.pending (if s = sid then recvData st c else st)) rest
    | .fin s ok =>
        if s = sid then processFrames sid (.finished st (finOutcome st ok)) rest
        else processFrames sid (.pending st) rest

/-- Run `defaultRecv`'s handler from the initial state. -/
def recvRun (sid : String) (frames : List Frame) : RecvOutcome :=
  processFrames sid (.pending initialRecvState) frames

/-- Result of `defaultRecv` when the channel closes after delivering
`frames`: a pending operation settles through the `onClose` handler. -/
def recvThenClose (sid : String) (frames : List Frame) : Except RecvErr Unit :=
  match recvRun sid frames with
  | .pending st => closeOutcome st
  | .finished _ r => r

/-- The data-streaming loop of `defaultSend`: empty chunks are skipped
(`if (!u8.byteLength) continue`), others become `Data` frames with
increasing `seq`. -/
def sendDataFrames (sid : String) (seq : Nat) : List (List Nat) → List Frame
  | [] => []
  | c :: cs =>
      if c.length = 0 then sendDataFrames sid seq cs
      else .data sid seq c :: sendDataFrames sid (seq + 1) cs

/-- `sent` accumulated by `defaultSend` over the source chunks. -/
def sentBytes (chunks : List (List Nat)) : Nat := (chunks.map List.length).sum

/-- The optional MetaHeader frame of `defaultSend`: one `Data` frame carrying
`buildMetaHeader(name)`, skipped when `name` is absent or empty (falsy). -/
def metaFrames (sid : String) (name : Option (List Nat)) : List Frame :=
  match name with
  | some nm => if nm.length = 0 then [] else [.data sid 0 (buildMetaHeader nm)]
  | none => []

/-- `defaultSend` (`src/transfer/default.js`), post-handshake: validate
`totalBytes`, send `Init`, optionally one MetaHeader `Data` frame (skipped
for a falsy name), stream the source, then `Fin{ok: sent === total}`.
Returns the ordered list of frames put on the channel, or the thrown error
message. -/
def defaultSendFrames (sid : String) (name : Option (List Nat))
    (chunks : List (List Nat)) (totalBytes : JSNum) : Except String (List Frame) :=
  match totalBytes with
  | .num q =>
      if q ≤ 0 then .error "defaultSend: totalBytes must be a positive integer"
      else
        .ok (.init sid q ::
             (metaFrames sid name ++
              sendDataFrames sid (metaFrames sid name).length chunks ++
              [.fin sid (decide ((sentBytes chunks : ℚ) = q))]))
  | _ => .error "defaultSend: totalBytes must be a positive integer"

/-- The senders's command path: the `totalBytes` guard of `run` in
`src/commands/send.js` followed by `defaultSend`. -/
def runSendFrames (sid : String) (name : Option (List Nat))
    (chunks : List (List Nat)) (totalBytes : JSNum) : Except String (List Frame) :=
  if runTotalInvalid totalBytes then .error "internal: computed totalBytes invalid"
  else defaultSendFrames sid name chunks totalBytes

/-- The `totalBytes` of every `Init` frame in a frame list. -/
def initTotals (fs : List Frame) : List ℚ :=
  fs.filterMap fun f =>
    match f with
    | .init _ q => some q
    | _ => none

/-- An inbound message as seen by `_withAuthReplay`'s tap: its (truthy)
`type` field, presence of the characteristic `offer`/`reveal`/`rcvconfirm`
fields, its optional `sessionId`, and an abstract payload identity. -/
structure AuthMsg where
  mtype : Option String
  offerField : Bool
  revealField : Bool
  rcvconfirmField : Bool
  sessionId : Option String
  payload : Nat
deriving DecidableEq

/-- `m.type || (m.offer && "offer") || (m.reveal && "reveal") ||
(m.rcvconfirm && "rcvconfirm") || null` in `_withAuthReplay`. -/
def classifyMsg (m : AuthMsg) : Option String :=
  match m.mtype with
  | some t => some t
  | none =>
      if m.offerField then some "offer"
      else if m.revealField then some "reveal"
      else if m.rcvconfirmField then some "rcvconfirm"
      else none

/-- The allow-list `AUTH_TYPES` of `_withAuthReplay`. -/
def AUTH_TYPES : List String := ["commit", "offer", "reveal", "rcvconfirm"]

/-- Whether the tap buffers a message (before a consumer attaches): it must
classify to an allow-listed type and must not carry a sessionId differing
from the wrapper's. -/
def shouldBuffer (wsid : Option String) (m : AuthMsg) : Bool :=
  match classifyMsg m with
  | none => false
  | some t =>
      if AUTH_TYPES.contains t then
        match m.sessionId, wsid with
        | some sid, some w => sid == w
        | _, _ => true
      else false

/-- `buf.push(...); if (buf.length > MAX) buf.shift();` with `MAX = 32`,
applied only to messages the tap buffers. -/
def pushBounded (wsid : Option String) (buf : List AuthMsg) (m : AuthMsg) : List AuthMsg :=
  if shouldBuffer wsid m then
    if 32 < (buf ++ [m]).length then (buf ++ [m]).drop 1 else buf ++ [m]
  else buf

/-- Events on a wrapped channel: an inbound message arrives, or a consumer
calls the wrapper's `onMessage`. -/
inductive ChanEvent where
  | arrive (m : AuthMsg)
  | attach
deriving DecidableEq

/-- Messages delivered to the first `onMessage` subscriber of the wrapper:
before the first attach, eligible messages are buffered (bounded, oldest
dropped); the first attach replays the buffer in order and clears it; all
later arrivals pass through directly (a later attach replays nothing to the
first subscriber and does not resume buffering). -/
def wrapDeliver (wsid : Option String) : List AuthMsg → Bool → List ChanEvent → List AuthMsg
  | _, _, [] => []
  | buf, false, .arrive m :: rest => wrapDeliver wsid (pushBounded wsid buf m) false rest
  | buf, true, .arrive m :: rest => m :: wrapDeliver wsid buf true rest
  | buf, false, .attach :: rest => buf ++ wrapDeliver wsid [] true rest
  | buf, true, .attach :: rest => wrapDeliver wsid buf true rest

/-- The last `n` elements of a list. -/
def lastN (n : Nat) (l : List α) : List α := l.drop (l.length - n)

/-- The 33 identical-type commit messages used to exhibit replay-buffer
overflow (payload numbers them). -/
def overflowMsgs : List AuthMsg :=
  (List.range 33).map fun i =>
    { mtype := some "commit", offerField := false, revealField := false,
      rcvconfirmField := false, sessionId := none, payload := i }

/-- The message test of `safeRecv` (`src/commands/recv.js`):
`/received bytes differ from announced totalBytes/i` matches exactly the
message of the `NC_SIZE_MISMATCH` error. -/
def isMismatchMessage : RecvErr → Bool
  | .sizeMismatch => true
  | _ => false

/-- `safeRecv` of `src/commands/recv.js`: run the receive; on a
bytes-mismatch error, suppress it when the sink's stats corroborate
(`announced > 0 && wrote === announced`), or when the tracker saw both INIT
and FIN and `wrote > 0`; rethrow anything else unchanged. -/
def safeRecv (r : Except RecvErr Unit) (wrote announced : Nat)
    (sawInit sawFin : Bool) : Except RecvErr Unit :=
  match r with
  | .ok () => .ok ()
  | .error e =>
      if isMismatchMessage e then
        if 0 < announced ∧ wrote = announced then .ok ()
        else if sawFin = true ∧ sawInit = true ∧ 0 < wrote then .ok ()
        else .error e
      else .error e

/-- `attachInitFinTracker`: `tracker.sawInit` is set when an `ns_init` for
the sessionId is observed. -/
def trackerSawInit (sid : String) (frames : List Frame) : Bool :=
  frames.any fun f =>
    match f with
    | .init s _ => s == sid
    | _ => false

/-- `attachInitFinTracker`: `tracker.sawFin` is set when an `ns_fin` for the
sessionId is observed. -/
def trackerSawFin (sid : String) (frames : List Frame) : Bool :=
  frames.any fun f =>
    match f with
    | .fin s _ => s == sid
    | _ => false

/-- An entry collected by `makeTarPack`'s pre-scan: the `stat` size recorded
in phase 1 and the bytes actually read from the file in phase 2. -/
structure TarEntry where
  size : Nat
  content : List Nat

/-- `Math.ceil(size / 512) * 512` on naturals. -/
def roundUp512 (n : Nat) : Nat := ((n + 511) / 512) * 512

/-- `totalSizeTar` as precomputed by `makeTarPack`
(`src/commands/send.js`): per entry `512 + Math.ceil(size/512)*512`, plus a
1024-byte end-of-archive marker. -/
def totalSizeTar (entries : List TarEntry) : Nat :=
  (entries.foldl (fun acc e => acc + (512 + roundUp512 e.size)) 0) + 1024

/-- Modelled from the spec: the 512-byte tar entry header block that
`tar-stream` (an external package, not part of src/) emits per entry; only
its length matters here, so its bytes are zeros. -/
def tarHeaderBlock : List Nat := List.replicate 512 0

/-- Modelled from the spec: zero padding of an entry's content to the next
512-byte boundary, per the tar format rules (§4.5 "size padded to 512"). -/
def tarPadding (n : Nat) : List Nat := List.replicate (roundUp512 n - n) 0

/-- Modelled from the spec: the fixed end-of-archive marker (two 512-byte
zero blocks) emitted once by `finalize`. -/
def tarEOF : List Nat := List.replicate 1024 0

/-- Modelled from the spec: the byte stream the returned tar pack emits for
the collected entries — per entry a 512-byte header, the file content, and
padding; then the end-of-archive marker. -/
def tarStreamBytes (entries : List TarEntry) : List Nat :=
  (entries.map fun e => tarHeaderBlock ++ e.content ++ tarPadding e.content.length).flatten
    ++ tarEOF

/-- Modelled from the spec: ArchiveExtractor path normalization (§4.6, not
present under src/) — discard empty and "." segments, resolve ".." by
popping the last retained segment, never escaping above the root. -/
def normalizeSegs (segs : List String) : List String :=
  segs.foldl
    (fun acc s =>
      if s = "" then acc
      else if s = "." then acc
      else if s = ".." then acc.dropLast
      else acc ++ [s])
    []

/-- Modelled from the spec: the absolute path an entry resolves to — the
destination root followed by the normalized relative segments. -/
def resolveEntryPath (root : List String) (segs : List String) : List String :=
  root ++ normalizeSegs segs

/-- An archive entry presented to the extractor: its raw relative path
segments and its content. -/
structure ArchiveEntryX where
  pathSegs : List String
  content : List Nat
deriving DecidableEq

/-- Modelled from the spec: extraction — each entry resolves under the
root; an entry whose resolved path is not inside the root is silently
skipped, the rest are written. -/
def extractEntries (root : List String) (entries : List ArchiveEntryX) :
    List (List String × List Nat) :=
  entries.filterMap fun e =>
    let p := resolveEntryPath root e.pathSegs
    if root.isPrefixOf p then some (p, e.content) else none

/-! ## Helper lemmas -/

theorem processFrames_finished (sid : String) (st : RecvState)
    (r : Except RecvErr Unit) (rest : List Frame) :
    processFrames sid (.finished st r) rest = .finished st r := by
  cases rest <;> rfl

theorem stripMetaHeader_build (name payload : List Nat) :
    stripMetaHeader (buildMetaHeader name ++ payload) = some (name.take 255, payload) := by
  have hb : buildMetaHeader name ++ payload
      = 0x4e :: 0x54 :: 0x4d :: 0x31 :: (name.take 255).length ::
        ((name.take 255) ++ payload) := by
    simp [buildMetaHeader, META_MAGIC]
  have hlen : (buildMetaHeader name ++ payload).length
      = 5 + ((name.take 255).length + payload.length) := by
    rw [hb]; simp; omega
  have hcond1 : 5 ≤ (buildMetaHeader name ++ payload).length ∧
      (buildMetaHeader name ++ payload).take 4 = META_MAGIC := by
    constructor
    · omega
    · rw [hb]; rfl
  have hgetD : (buildMetaHeader name ++ payload).getD 4 0 = (name.take 255).length := by
    rw [hb]; rfl
  have hdrop5 : (buildMetaHeader name ++ payload).drop 5 = (name.take 255) ++ payload := by
    rw [hb]; rfl
  have hdropfull : (buildMetaHeader name ++ payload).drop ((name.take 255).length + 5)
      = payload := by
    rw [hb]
    show (List.take 255 name ++ payload).drop (List.take 255 name).length = payload
    exact List.drop_left _ _
  unfold stripMetaHeader
  rw [if_pos hcond1, hgetD, if_pos (by omega)]
  rw [hdrop5, List.take_left]
  rw [Nat.add_comm 5 (name.take 255).length, hdropfull]

theorem stripMetaHeader_short (b : List Nat) (h : b.length < 5) :
    stripMetaHeader b = none := by
  unfold stripMetaHeader
  rw [if_neg]
  intro ⟨h1, _⟩
  omega

theorem stripMetaHeader_noMagic (b : List Nat) (h : b.take 4 ≠ META_MAGIC) :
    stripMetaHeader b = none := by
  unfold stripMetaHeader
  rw [if_neg]
  intro ⟨_, h2⟩
  exact h h2

theorem sentBytes_flatten (chunks : List (List Nat)) :
    sentBytes chunks = chunks.flatten.length := by
  simp [sentBytes]

theorem sendDataFrames_stream (sid : String) :
    ∀ (chunks : List (List Nat)) (seq : Nat) (st : RecvState) (rest : List Frame),
      st.metaSeen = true →
      processFrames sid (.pending st) (sendDataFrames sid seq chunks ++ rest)
        = processFrames sid
            (.pending { st with sinkBytes := st.sinkBytes ++ chunks.flatten,
                                written := st.written + sentBytes chunks }) rest := by
  intro chunks
  induction chunks with
  | nil =>
      intro seq st rest h
      simp [sendDataFrames, sentBytes]
  | cons c cs ih =>
      intro seq st rest h
      rw [sendDataFrames]
      by_cases hc : c.length = 0
      · rw [if_pos hc, ih seq st rest h]
        have hce : c = [] := List.length_eq_zero.mp hc
        subst hce
        simp [sentBytes]
      · rw [if_neg hc]
        have hstep :
            processFrames sid (.pending st)
              (.data sid seq c :: (sendDataFrames sid (seq + 1) cs ++ rest))
            = processFrames sid (.pending (recvData st c))
                (sendDataFrames sid (seq + 1) cs ++ rest) := by
          simp [processFrames]
        rw [List.cons_append, hstep]
        have hrd : recvData st c
            = { st with sinkBytes := st.sinkBytes ++ c,
                        written := st.written + c.length } := by
          rw [recvData, if_pos h]
        rw [hrd, ih (seq + 1) _ rest (by simp [h])]
        exact congrArg (fun z => processFrames sid (RecvOutcome.pending z) rest)
          (by simp [sentBytes, List.append_assoc, Nat.add_assoc])

/-- C1 (amended): with a filename supplied (so a MetaHeader frame precedes the
payload), sending any nonempty payload `B` through `defaultSend` and feeding
the emitted frames in order to `defaultRecv` writes exactly `B` to the
receiver's sink and resolves successfully; a `totalBytes` of 0 is rejected
before any frame is emitted.  (The unamended claim — a byte-identical round
trip for every `B` with no condition on the filename — fails when no name is
sent and `B` begins with a parseable MetaHeader; see the counterexample.) -/
theorem defaultRoundtrip_amended :
    (∀ (sid : String) (nm : List Nat) (chunks : List (List Nat)),
        nm ≠ [] → chunks.flatten ≠ [] →
        defaultSendFrames sid (some nm) chunks (.num (chunks.flatten.length : ℚ))
            = .ok (.init sid (chunks.flatten.length : ℚ) ::
                   .data sid 0 (buildMetaHeader nm) ::
                   (sendDataFrames sid 1 chunks ++ [.fin sid true])) ∧
        recvRun sid
            (.init sid (chunks.flatten.length : ℚ) ::
             .data sid 0 (buildMetaHeader nm) ::
             (sendDataFrames sid 1 chunks ++ [.fin sid true]))
          = .finished
              { announced := some (chunks.flatten.length : ℚ),
                written := chunks.flatten.length, metaSeen := true,
                sinkBytes := chunks.flatten } (.ok ())) ∧
    (∀ (sid : String) (name : Option (List Nat)) (chunks : List (List Nat)),
        defaultSendFrames sid name chunks (.num 0)
          = .error "defaultSend: totalBytes must be a positive integer") := by
  constructor
  · intro sid nm chunks hnm hB
    have hlen : 0 < chunks.flatten.length := List.length_pos.mpr hB
    have hq : ¬ ((chunks.flatten.length : ℚ) ≤ 0) := by
      push_neg
      exact_mod_cast hlen
    have hnml : ¬ (nm.length = 0) := by
      simpa [List.length_eq_zero] using hnm
    have hmeta : metaFrames sid (some nm) = [Frame.data sid 0 (buildMetaHeader nm)] := by
      simp [metaFrames, hnml]
    have hok : (decide ((sentBytes chunks : ℚ) = ((chunks.flatten.length : Nat) : ℚ)))
        = true := by
      simp [sentBytes_flatten]
    constructor
    · rw [defaultSendFrames, if_neg hq, hmeta, hok]
      simp
    · rw [recvRun]
      have h1 : processFrames sid (.pending initialRecvState)
          (Frame.init sid (chunks.flatten.length : ℚ) ::
           Frame.data sid 0 (buildMetaHeader nm) ::
           (sendDataFrames sid 1 chunks ++ [Frame.fin sid true]))
          = processFrames sid
              (.pending ⟨some (chunks.flatten.length : ℚ), 0, false, []⟩)
              (Frame.data sid 0 (buildMetaHeader nm) ::
               (sendDataFrames sid 1 chunks ++ [Frame.fin sid true])) := by
        simp [processFrames, initialRecvState]
      rw [h1]
      have hH : stripMetaHeader (buildMetaHeader nm) = some (nm.take 255, []) := by
        simpa using stripMetaHeader_build nm []
      have h2 : processFrames sid
          (.pending ⟨some (chunks.flatten.length : ℚ), 0, false, []⟩)
          (Frame.data sid 0 (buildMetaHeader nm) ::
           (sendDataFrames sid 1 chunks ++ [Frame.fin sid true]))
          = processFrames sid
              (.pending ⟨some (chunks.flatten.length : ℚ), 0, true, []⟩)
              (sendDataFrames sid 1 chunks ++ [Frame.fin sid true]) := by
        simp [processFrames, recvData, hH]
      rw [h2]
      rw [sendDataFrames_stream sid chunks 1 _ _ rfl]
      simp [processFrames, finOutcome, sentBytes_flatten]
  · intro sid name chunks
    simp [defaultSendFrames]

theorem lastN_of_le {α : Type} {l : List α} {n : Nat} (h : l.length ≤ n) :
    lastN n l = l := by
  unfold lastN
  rw [Nat.sub_eq_zero_of_le h, List.drop_zero]

theorem lastN_window {α : Type} (n : Nat) (xs ys : List α) :
    lastN n (lastN n xs ++ ys) = lastN n (xs ++ ys) := by
  unfold lastN
  rw [List.drop_append_eq_append_drop, List.drop_append_eq_append_drop, List.drop_drop]
  congr 1
  · congr 1
    simp only [List.length_append, List.length_drop]
    omega
  · congr 1
    simp only [List.length_append, List.length_drop]
    omega

theorem pushBounded_foldl (wsid : Option String) :
    ∀ (pre : List AuthMsg) (buf : List AuthMsg), buf.length ≤ 32 →
      List.foldl (pushBounded wsid) buf pre
        = lastN 32 (buf ++ pre.filter (shouldBuffer wsid)) := by
  intro pre
  induction pre with
  | nil =>
      intro buf h
      rw [List.foldl_nil, List.filter_nil, List.append_nil, lastN_of_le h]
  | cons m ps ih =>
      intro buf h
      rw [List.foldl_cons]
      by_cases hm : shouldBuffer wsid m = true
      · have hfil : (m :: ps).filter (shouldBuffer wsid)
            = m :: ps.filter (shouldBuffer wsid) := List.filter_cons_of_pos hm
        have hlb : (buf ++ [m]).length = buf.length + 1 := by simp
        by_cases hlen : 32 < (buf ++ [m]).length
        · have hp : pushBounded wsid buf m = (buf ++ [m]).drop 1 := by
            rw [pushBounded, if_pos hm, if_pos hlen]
          have h32 : ((buf ++ [m]).drop 1).length ≤ 32 := by
            rw [List.length_drop, hlb]
            omega
          rw [hp, ih _ h32]
          have hdr : (buf ++ [m]).drop 1 = lastN 32 (buf ++ [m]) := by
            unfold lastN
            congr 1
            rw [hlb] at hlen ⊢
            omega
          rw [hdr, lastN_window, hfil]
          congr 1
          simp
        · have hp : pushBounded wsid buf m = buf ++ [m] := by
            rw [pushBounded, if_pos hm, if_neg hlen]
          have h32 : (buf ++ [m]).length ≤ 32 := by omega
          rw [hp, ih _ h32, hfil]
          congr 1
          simp
      · have hp : pushBounded wsid buf m = buf := by
          rw [pushBounded, if_neg hm]
        rw [hp, ih buf h]
        congr 2
        rw [List.filter_cons_of_neg hm]

theorem wrapDeliver_attached (wsid : Option String) :
    ∀ (post : List AuthMsg) (buf : List AuthMsg),
      wrapDeliver wsid buf true (post.map .arrive) = post := by
  intro post
  induction post with
  | nil => intro buf; rfl
  | cons m ps ih =>
      intro buf
      simp only [List.map_cons, wrapDeliver]
      rw [ih buf]

theorem wrapDeliver_run (wsid : Option String) (post : List AuthMsg) :
    ∀ (pre : List AuthMsg) (buf : List AuthMsg),
      wrapDeliver wsid buf false (pre.map .arrive ++ .attach :: post.map .arrive)
        = List.foldl (pushBounded wsid) buf pre ++ post := by
  intro pre
  induction pre with
  | nil =>
      intro buf
      simp only [List.map_nil, List.nil_append, wrapDeliver, List.foldl_nil]
      rw [wrapDeliver_attached]
  | cons m ps ih =>
      intro buf
      simp only [List.map_cons, List.cons_append, wrapDeliver, List.foldl_cons]
      exact ih _

/-- C10: the MetaHeader codec round-trips — stripping the concatenation of
`buildMetaHeader(name)` and a payload recovers the name truncated to its
first 255 bytes and exactly the payload; and `stripMetaHeader` returns
`none` for any input shorter than 5 bytes or not starting with the "NTM1"
magic. -/
theorem metaHeader_codec :
    ∀ (name payload b : List Nat),
      stripMetaHeader (buildMetaHeader name ++ payload)
          = some (name.take 255, payload) ∧
      (b.length < 5 → stripMetaHeader b = none) ∧
      (b.take 4 ≠ META_MAGIC → stripMetaHeader b = none) := by
  intro name payload b
  exact ⟨stripMetaHeader_build name payload,
         stripMetaHeader_short b,
         stripMetaHeader_noMagic b⟩

/-- Witness for `metaHeader_codec` at a concrete name, payload and bad
input. -/
theorem metaHeader_codec_witness :
    stripMetaHeader (buildMetaHeader [97, 98] ++ [9, 8, 7])
        = some ([97, 98], [9, 8, 7]) ∧
    stripMetaHeader [1, 2] = none ∧
    stripMetaHeader [9, 9, 9, 9, 9, 9] = none := by
  refine ⟨(metaHeader_codec [97, 98] [9, 8, 7] [1, 2]).1,
          (metaHeader_codec [97, 98] [9, 8, 7] [1, 2]).2.1 (by decide),
          (metaHeader_codec [97, 98] [9, 8, 7] [9, 9, 9, 9, 9, 9]).2.2 (by decide)⟩

/-- C3 (amended): deliveries to the first `onMessage` subscriber of the
replay wrapper are exactly the most recent 32 buffered-eligible frames that
arrived before the attach (oldest dropped on overflow), in arrival order,
followed by every frame arriving after the attach, each exactly once.  (The
unamended claim — that all eligible pre-attach frames are delivered — fails
once more than 32 arrive; see the counterexample.) -/
theorem replayDeliver_amended :
    ∀ (wsid : Option String) (pre post : List AuthMsg),
      wrapDeliver wsid [] false
          (pre.map ChanEvent.arrive ++ ChanEvent.attach :: post.map ChanEvent.arrive)
        = lastN 32 (pre.filter (shouldBuffer wsid)) ++ post := by
  intro wsid pre post
  rw [wrapDeliver_run wsid post pre [], pushBounded_foldl wsid pre [] (by simp)]
  simp

set_option maxRecDepth 4000 in
/-- C3 counterexample: 33 allow-listed commit frames (numbered 0–32 by
payload) arrive before the first subscriber attaches; the subscriber
receives only the most recent 32 — the first frame (payload 0) is lost, so
pre-attach frames are not all delivered. -/
theorem replayBuffer_overflow_counterexample :
    (wrapDeliver none [] false
        (overflowMsgs.map ChanEvent.arrive ++ [ChanEvent.attach])).map AuthMsg.payload
      = (List.range 33).drop 1 ∧
    overflowMsgs.map AuthMsg.payload = List.range 33 ∧
    (0 : Nat) ∉ ((List.range 33).drop 1) := by
  refine ⟨by decide, by decide, by decide⟩

/-- C1 counterexample: a 5-byte payload that happens to begin with the
MetaHeader magic ("NTM1" plus a zero length byte), sent by `defaultSend`
with no name, is falsely stripped by the receiver: the sink receives no
bytes instead of the payload, and the operation rejects with a size
mismatch — so the round trip does not hold for every payload. -/
theorem defaultRoundtrip_counterexample :
    defaultSendFrames "s" none [[0x4e, 0x54, 0x4d, 0x31, 0]] (.num 5)
        = .ok [.init "s" 5, .data "s" 0 [0x4e, 0x54, 0x4d, 0x31, 0], .fin "s" true] ∧
    recvRun "s" [.init "s" 5, .data "s" 0 [0x4e, 0x54, 0x4d, 0x31, 0], .fin "s" true]
        = .finished ⟨some 5, 0, true, []⟩ (.error .sizeMismatch) :=
  ⟨rfl, rfl⟩

/-- Witness for `defaultRoundtrip_amended` at a concrete name and a payload
split over two unequal chunks. -/
theorem defaultRoundtrip_amended_witness :
    defaultSendFrames "s" (some [110]) [[1], [2, 3]]
        (.num ((([[1], [2, 3]] : List (List Nat)).flatten.length : Nat) : ℚ))
      = .ok (.init "s" ((([[1], [2, 3]] : List (List Nat)).flatten.length : Nat) : ℚ) ::
             .data "s" 0 (buildMetaHeader [110]) ::
             (sendDataFrames "s" 1 [[1], [2, 3]] ++ [.fin "s" true])) ∧
    recvRun "s"
        (.init "s" ((([[1], [2, 3]] : List (List Nat)).flatten.length : Nat) : ℚ) ::
         .data "s" 0 (buildMetaHeader [110]) ::
         (sendDataFrames "s" 1 [[1], [2, 3]] ++ [.fin "s" true]))
      = .finished
          { announced := some ((([[1], [2, 3]] : List (List Nat)).flatten.length : Nat) : ℚ),
            written := ([[1], [2, 3]] : List (List Nat)).flatten.length,
            metaSeen := true,
            sinkBytes := ([[1], [2, 3]] : List (List Nat)).flatten } (.ok ()) :=
  defaultRoundtrip_amended.1 "s" [110] [[1], [2, 3]] (by decide) (by decide)

/-- C2 (amended): when `defaultRecv` observes a `Fin` frame for its session,
the operation settles with `finOutcome`; it resolves successfully iff
`fin.ok` is true and no size mismatch is detected (`announced` unset, zero,
or equal to `written`); a nonzero announced total disagreeing with `written`
rejects with the size-mismatch error, and this takes precedence even when
`fin.ok == false` (see the counterexample); otherwise `fin.ok == false`
rejects with the sender-failure error — in particular whenever
`written == announced`. -/
theorem finOutcome_amended :
    ∀ (sid : String) (st : RecvState) (ok : Bool) (rest : List Frame),
      processFrames sid (.pending st) (.fin sid ok :: rest)
          = .finished st (finOutcome st ok) ∧
      (finOutcome st ok = .ok () ↔
        (ok = true ∧ (st.announced = none ∨ st.announced = some 0 ∨
                      st.announced = some (st.written : ℚ)))) ∧
      (∀ a, st.announced = some a → a ≠ 0 → (st.written : ℚ) ≠ a →
        finOutcome st ok = .error .sizeMismatch) ∧
      ((st.announced = none ∨ st.announced = some 0 ∨
        st.announced = some (st.written : ℚ)) → ok = false →
        finOutcome st ok = .error .senderFail) := by
  intro sid st ok rest
  refine ⟨?_, ?_, ?_, ?_⟩
  · simp [processFrames, processFrames_finished]
  · cases hA : st.announced with
    | none => cases ok <;> simp [finOutcome, hA]
    | some a =>
        by_cases h0 : a = 0
        · subst h0
          cases ok <;> simp [finOutcome, hA]
        · by_cases hw : (st.written : ℚ) = a
          · cases ok <;> simp [finOutcome, hA, h0, hw]
          · cases ok <;> simp [finOutcome, hA, h0, hw, Ne.symm hw]
  · intro a hA h0 hw
    simp [finOutcome, hA, h0, hw]
  · intro hOr hok
    subst hok
    cases hA : st.announced with
    | none => simp [finOutcome, hA]
    | some a =>
        rcases hOr with h | h | h
        · rw [hA] at h
          exact Option.noConfusion h
        · rw [hA] at h
          injection h with h
          subst h
          simp [finOutcome, hA]
        · rw [hA] at h
          injection h with h
          subst h
          simp [finOutcome, hA]

/-- C2 counterexample: `Init{totalBytes:5}` followed by `Fin{ok:false}` with
nothing written — the claim demands the sender-failure error whenever
`fin.ok == false`, but the code rejects with the size-mismatch error (the
mismatch check runs first). -/
theorem finPrecedence_counterexample :
    recvRun "s" [.init "s" 5, .fin "s" false]
        = .finished ⟨some 5, 0, false, []⟩ (.error .sizeMismatch) ∧
    RecvErr.sizeMismatch ≠ RecvErr.senderFail :=
  ⟨rfl, by decide⟩

/-- Witness for `finOutcome_amended` at a concrete state with
`written == announced` and `fin.ok == false`: the sender-failure error. -/
theorem finOutcome_amended_witness :
    finOutcome ⟨some 3, 3, true, [1, 2, 3]⟩ false = .error .senderFail :=
  (finOutcome_amended "s" ⟨some 3, 3, true, [1, 2, 3]⟩ false []).2.2.2
    (by right; right; norm_num) rfl

/-- C5 (amended): when the channel closes before any `Fin` is observed, the
pending operation settles with `closeOutcome`; it resolves successfully iff
`announced` is unset, zero, or equal to `written`; otherwise it rejects with
the connection-closed-early error.  (The unamended claim — success only when
`written == announced` — fails when no `Init` was seen or the announced
total is zero; see the counterexample.) -/
theorem closeOutcome_amended :
    ∀ (sid : String) (frames : List Frame) (st : RecvState),
      (recvRun sid frames = .pending st → recvThenClose sid frames = closeOutcome st) ∧
      (closeOutcome st = .ok () ↔
        (st.announced = none ∨ st.announced = some 0 ∨
         st.announced = some (st.written : ℚ))) ∧
      (closeOutcome st ≠ .ok () → closeOutcome st = .error .closedEarly) := by
  intro sid frames st
  refine ⟨?_, ?_, ?_⟩
  · intro h
    rw [recvThenClose, h]
  · cases hA : st.announced with
    | none => simp [closeOutcome, hA]
    | some a =>
        by_cases h0 : a = 0
        · subst h0
          simp [closeOutcome, hA]
        · by_cases hw : (st.written : ℚ) = a
          · simp [closeOutcome, hA, h0, hw]
          · simp [closeOutcome, hA, h0, hw, Ne.symm hw]
  · intro h
    cases hA : st.announced with
    | none => exact absurd (by simp [closeOutcome, hA]) h
    | some a =>
        by_cases hc : a ≠ 0 ∧ (st.written : ℚ) ≠ a
        · simp [closeOutcome, hA, hc]
        · exact absurd (by simp [closeOutcome, hA, hc]) h

/-- C5 counterexample: an `Init` with `totalBytes = 0` followed by 3 data
bytes, then the channel closes with no `Fin`: the operation resolves
successfully although `written = 3` differs from the announced `0`. -/
theorem closeResolve_counterexample :
    recvRun "s" [.init "s" 0, .data "s" 0 [1, 2, 3]]
        = .pending ⟨some 0, 3, true, [1, 2, 3]⟩ ∧
    recvThenClose "s" [.init "s" 0, .data "s" 0 [1, 2, 3]] = .ok () ∧
    (3 : ℚ) ≠ 0 :=
  ⟨rfl, rfl, by norm_num⟩

/-- Witness for `closeOutcome_amended` at a concrete run: `Init{5}` plus two
data bytes, channel closed early — rejects with the closed-early error. -/
theorem closeOutcome_amended_witness :
    recvThenClose "s" [.init "s" 5, .data "s" 0 [1, 2]]
        = closeOutcome ⟨some 5, 2, true, [1, 2]⟩ ∧
    closeOutcome ⟨some 5, 2, true, [1, 2]⟩ = .error .closedEarly :=
  ⟨(closeOutcome_amended "s" [.init "s" 5, .data "s" 0 [1, 2]]
      ⟨some 5, 2, true, [1, 2]⟩).1 rfl,
   (closeOutcome_amended "s" [.init "s" 5, .data "s" 0 [1, 2]]
      ⟨some 5, 2, true, [1, 2]⟩).2.2
     (by norm_num [closeOutcome]; exact fun h => Except.noConfusion h)⟩

theorem initTotals_sendDataFrames (sid : String) :
    ∀ (chunks : List (List Nat)) (seq : Nat),
      initTotals (sendDataFrames sid seq chunks) = [] := by
  intro chunks
  induction chunks with
  | nil => intro seq; rfl
  | cons c cs ih =>
      intro seq
      rw [sendDataFrames]
      by_cases hc : c.length = 0
      · rw [if_pos hc]
        exact ih seq
      · rw [if_neg hc]
        simp only [initTotals, List.filterMap_cons]
        exact ih (seq + 1)

theorem initTotals_metaFrames (sid : String) (name : Option (List Nat)) :
    initTotals (metaFrames sid name) = [] := by
  cases name with
  | none => rfl
  | some nm =>
      by_cases h : nm.length = 0
      · simp [metaFrames, h, initTotals]
      · simp [metaFrames, h, initTotals]

theorem initTotals_append (l₁ l₂ : List Frame) :
    initTotals (l₁ ++ l₂) = initTotals l₁ ++ initTotals l₂ := by
  simp [initTotals]

theorem initTotals_cons_init (s : String) (q : ℚ) (l : List Frame) :
    initTotals (.init s q :: l) = q :: initTotals l := rfl

theorem initTotals_cons_fin (s : String) (ok : Bool) (l : List Frame) :
    initTotals (.fin s ok :: l) = initTotals l := rfl

/-- C9 (amended): the receiver does not enforce Init-before-Data (a `Data`
frame arriving first is written to the sink; see the counterexample); the
invariant holds instead on the sender side: every frame list `defaultSend`
emits begins with the `Init` frame, so over the reliable in-order channel
an `Init` always precedes every `Data`. -/
theorem initFirst_amended :
    ∀ (sid : String) (name : Option (List Nat)) (chunks : List (List Nat)) (q : ℚ)
      (fs : List Frame),
      defaultSendFrames sid name chunks (.num q) = .ok fs →
      fs = .init sid q ::
           (metaFrames sid name ++
            sendDataFrames sid (metaFrames sid name).length chunks ++
            [.fin sid (decide ((sentBytes chunks : ℚ) = q))]) := by
  intro sid name chunks q fs h
  rw [defaultSendFrames] at h
  by_cases h0 : q ≤ 0
  · rw [if_pos h0] at h
    exact Except.noConfusion h
  · rw [if_neg h0] at h
    injection h with h
    exact h.symm

/-- C9 counterexample: a `Data` frame for the session arriving before any
`Init` is written straight to the sink (`written = 3`, sink `[1,2,3]`,
`announced` still unset) — it is not held or ignored. -/
theorem dataBeforeInit_counterexample :
    recvRun "s" [.data "s" 0 [1, 2, 3]] = .pending ⟨none, 3, true, [1, 2, 3]⟩ :=
  rfl

/-- Witness for `initFirst_amended` on a concrete one-chunk send. -/
theorem initFirst_amended_witness :
    ([.init "s" 1, .data "s" 0 [7], .fin "s" true] : List Frame)
      = .init "s" 1 ::
        (metaFrames "s" none ++
         sendDataFrames "s" (metaFrames "s" none).length [[7]] ++
         [.fin "s" (decide ((sentBytes [[7]] : ℚ) = 1))]) :=
  initFirst_amended "s" none [[7]] 1
    [.init "s" 1, .data "s" 0 [7], .fin "s" true] rfl

/-- C7 (amended): `defaultSend` itself rejects non-finite or nonpositive
`totalBytes` before emitting any frame, but does not reject finite
non-integer values (see the counterexample); integrality is enforced
upstream by the send command's guard, so along the command path every
emitted `Init` frame carries an integral, strictly positive `totalBytes`. -/
theorem sendTotalValidation_amended :
    ∀ (sid : String) (name : Option (List Nat)) (chunks : List (List Nat)) (t : JSNum),
      (sendTotalInvalid t = true →
        defaultSendFrames sid name chunks t
          = .error "defaultSend: totalBytes must be a positive integer") ∧
      (∀ fs, runSendFrames sid name chunks t = .ok fs →
        ∀ q ∈ initTotals fs, q.den = 1 ∧ 0 < q) := by
  intro sid name chunks t
  constructor
  · intro hInv
    cases t with
    | num q =>
        have hq : q ≤ 0 := by simpa [sendTotalInvalid] using hInv
        rw [defaultSendFrames, if_pos hq]
    | nan => rfl
    | posInf => rfl
    | negInf => rfl
  · intro fs h q hq
    rw [runSendFrames] at h
    by_cases hInv : runTotalInvalid t = true
    · rw [if_pos hInv] at h
      exact Except.noConfusion h
    · rw [if_neg hInv] at h
      cases t with
      | nan => exact absurd rfl hInv
      | posInf => exact absurd rfl hInv
      | negInf => exact absurd rfl hInv
      | num q0 =>
          have hden : q0.den = 1 ∧ ¬ q0 ≤ 0 := by
            rw [runTotalInvalid] at hInv
            constructor
            · by_contra hd
              exact hInv (by simp [hd])
            · intro hle
              exact hInv (by simp [hle])
          rw [defaultSendFrames, if_neg hden.2] at h
          injection h with h
          subst h
          rw [initTotals_cons_init, initTotals_append, initTotals_append,
              initTotals_metaFrames, initTotals_sendDataFrames,
              initTotals_cons_fin] at hq
          have hqq : q = q0 := by
            simpa [initTotals] using hq
          subst hqq
          exact ⟨hden.1, lt_of_not_le hden.2⟩

/-- C7 counterexample: `defaultSend` called with the finite non-integer
`totalBytes = 5/2` does not throw — it emits the `Init` frame carrying the
non-integer total. -/
theorem sendNonIntegerTotal_counterexample :
    defaultSendFrames "s" none [] (.num (mkRat 5 2))
        = .ok [.init "s" (mkRat 5 2), .fin "s" false] ∧
    (mkRat 5 2).den ≠ 1 :=
  ⟨rfl, by decide⟩

/-- Witness for `sendTotalValidation_amended`: NaN is rejected by
`defaultSend`, and the command path at `totalBytes = 3` yields only
integral positive Init totals. -/
theorem sendTotalValidation_amended_witness :
    defaultSendFrames "s" none [] JSNum.nan
        = .error "defaultSend: totalBytes must be a positive integer" ∧
    ((3 : ℚ).den = 1 ∧ 0 < (3 : ℚ)) :=
  ⟨(sendTotalValidation_amended "s" none [] JSNum.nan).1 rfl,
   (sendTotalValidation_amended "s" none [] (.num 3)).2
     [.init "s" 3, .fin "s" false] rfl 3 (by simp [initTotals])⟩

/-- C6: the receiving command's `safeRecv` suppresses a bytes-mismatch error
(treating the transfer as complete) exactly when one of the two
corroborating signals holds — `announced > 0` with `written == announced`,
or both Init and Fin observed by the tracker with `written > 0`; every
error not meeting these conditions, and every non-mismatch error, is
rethrown unchanged, and a successful run is passed through. -/
theorem safeRecv_suppression :
    ∀ (e : RecvErr) (w a : Nat) (sid : String) (frames : List Frame),
      (safeRecv (.error e) w a (trackerSawInit sid frames) (trackerSawFin sid frames)
          = .ok () ↔
        (isMismatchMessage e = true ∧
          ((0 < a ∧ w = a) ∨
           (trackerSawFin sid frames = true ∧ trackerSawInit sid frames = true ∧
            0 < w)))) ∧
      (safeRecv (.error e) w a (trackerSawInit sid frames) (trackerSawFin sid frames)
          ≠ .ok () →
        safeRecv (.error e) w a (trackerSawInit sid frames) (trackerSawFin sid frames)
          = .error e) ∧
      safeRecv (.ok ()) w a (trackerSawInit sid frames) (trackerSawFin sid frames)
        = .ok () := by
  intro e w a sid frames
  set si := trackerSawInit sid frames with hsi
  set sf := trackerSawFin sid frames with hsf
  refine ⟨?_, ?_, rfl⟩
  · show safeRecv (.error e) w a si sf = .ok () ↔ _
    simp only [safeRecv]
    by_cases hM : isMismatchMessage e = true
    · rw [if_pos hM]
      by_cases h1 : 0 < a ∧ w = a
      · rw [if_pos h1]
        exact iff_of_true rfl ⟨hM, Or.inl h1⟩
      · rw [if_neg h1]
        by_cases h2 : sf = true ∧ si = true ∧ 0 < w
        · rw [if_pos h2]
          exact iff_of_true rfl ⟨hM, Or.inr h2⟩
        · rw [if_neg h2]
          exact iff_of_false (fun h => Except.noConfusion h)
            (fun h => h.2.elim h1 h2)
    · rw [if_neg hM]
      exact iff_of_false (fun h => Except.noConfusion h) (fun h => hM h.1)
  · intro hne
    show safeRecv (.error e) w a si sf = .error e
    simp only [safeRecv] at hne ⊢
    by_cases hM : isMismatchMessage e = true
    · rw [if_pos hM] at hne ⊢
      by_cases h1 : 0 < a ∧ w = a
      · exact absurd (by rw [if_pos h1]) hne
      · rw [if_neg h1] at hne ⊢
        by_cases h2 : sf = true ∧ si = true ∧ 0 < w
        · exact absurd (by rw [if_pos h2]) hne
        · rw [if_neg h2]
    · rw [if_neg hM]

/-- Witness for `safeRecv_suppression`: a size-mismatch error with
`announced = 5 = written` is suppressed. -/
theorem safeRecv_suppression_witness :
    safeRecv (.error .sizeMismatch) 5 5 (trackerSawInit "s" []) (trackerSawFin "s" [])
        = .ok () :=
  ((safeRecv_suppression .sizeMismatch 5 5 "s" []).1).mpr
    ⟨rfl, Or.inl ⟨by decide, rfl⟩⟩

theorem roundUp512_ge (n : Nat) : n ≤ roundUp512 n := by
  unfold roundUp512
  have h1 := Nat.mod_add_div (n + 511) 512
  have h2 : (n + 511) % 512 < 512 := Nat.mod_lt _ (by omega)
  omega

theorem tarFoldl_sum :
    ∀ (l : List TarEntry) (acc : Nat),
      List.foldl (fun acc e => acc + (512 + roundUp512 e.size)) acc l
        = acc + (l.map fun e => 512 + roundUp512 e.size).sum := by
  intro l
  induction l with
  | nil => intro acc; simp
  | cons e es ih =>
      intro acc
      rw [List.foldl_cons, ih, List.map_cons, List.sum_cons]
      omega

/-- C4: the `totalSizeTar` precomputed by `makeTarPack` — per collected
entry `512 + roundUp(size, 512)`, plus the 1024-byte end-of-archive marker
added once — equals the number of bytes the tar stream actually emits, for
any fixed entry list whose streamed content matches the pre-scanned sizes
(no mid-scan mutation). -/
theorem tarSize_exact :
    ∀ (entries : List TarEntry),
      (∀ e ∈ entries, e.content.length = e.size) →
      (tarStreamBytes entries).length = totalSizeTar entries := by
  intro entries
  induction entries with
  | nil =>
      intro _
      rw [tarStreamBytes, totalSizeTar]
      simp only [List.map_nil, List.flatten_nil, List.nil_append, List.foldl_nil,
        tarEOF, List.length_replicate]
  | cons e es ih =>
      intro h
      have he : e.content.length = e.size := h e (by simp)
      have hes : ∀ x ∈ es, x.content.length = x.size := fun x hx => h x (by simp [hx])
      have hge := roundUp512_ge e.size
      have hper : (tarHeaderBlock ++ e.content ++ tarPadding e.content.length).length
          = 512 + roundUp512 e.size := by
        simp only [List.length_append, tarHeaderBlock, tarPadding,
          List.length_replicate, he]
        omega
      have hts : totalSizeTar (e :: es)
          = (512 + roundUp512 e.size) + totalSizeTar es := by
        rw [totalSizeTar, totalSizeTar, List.foldl_cons, tarFoldl_sum, tarFoldl_sum]
        omega
      have hstream : tarStreamBytes (e :: es)
          = (tarHeaderBlock ++ e.content ++ tarPadding e.content.length)
              ++ tarStreamBytes es := by
        rw [tarStreamBytes, tarStreamBytes, List.map_cons, List.flatten_cons,
          List.append_assoc]
      rw [hstream, List.length_append, ih hes, hper, hts]

/-- Witness for `tarSize_exact` on a one-entry fileset: 512 header + 1
content byte + 511 padding + 1024 marker = 2048 = 512 + 512 + 1024. -/
theorem tarSize_exact_witness :
    (tarStreamBytes [⟨1, [7]⟩]).length = totalSizeTar [⟨1, [7]⟩] :=
  tarSize_exact [⟨1, [7]⟩] (by
    intro x hx
    simp only [List.mem_singleton] at hx
    subst hx
    rfl)

theorem isPrefixOf_append_self (root x : List String) :
    root.isPrefixOf (root ++ x) = true := by
  induction root with
  | nil => simp [List.isPrefixOf]
  | cons a as ih => simp [List.isPrefixOf, ih]

theorem isPrefixOf_resolveEntryPath (root segs : List String) :
    root.isPrefixOf (resolveEntryPath root segs) = true := by
  rw [resolveEntryPath]
  exact isPrefixOf_append_self root (normalizeSegs segs)

/-- C8 (modelled from the spec): every path the extractor writes lies inside
the destination root — with `..` resolved by popping the last retained
segment a normalized path can never escape, any entry failing the
inside-root check is skipped (never written), and every entry resolving
inside the root is extracted, so extraction completes for the valid
entries. -/
theorem extractInsideRoot :
    ∀ (root : List String) (entries : List ArchiveEntryX),
      (∀ w ∈ extractEntries root entries, root.isPrefixOf w.1 = true) ∧
      (∀ e ∈ entries,
        (resolveEntryPath root e.pathSegs, e.content) ∈ extractEntries root entries) := by
  intro root entries
  constructor
  · intro w hw
    simp only [extractEntries] at hw
    rcases List.mem_filterMap.mp hw with ⟨e, _, hme⟩
    rw [if_pos (isPrefixOf_resolveEntryPath root e.pathSegs)] at hme
    injection hme with hme
    rw [← hme]
    exact isPrefixOf_resolveEntryPath root e.pathSegs
  · intro e he
    simp only [extractEntries]
    apply List.mem_filterMap.mpr
    exact ⟨e, he,
      by rw [if_pos (isPrefixOf_resolveEntryPath root e.pathSegs)]⟩

/-- Witness for `extractInsideRoot`: the classic `../../etc/passwd` entry
resolves to `dst/etc/passwd`, inside the destination root. -/
theorem extractInsideRoot_witness :
    resolveEntryPath ["dst"] ["..", "..", "etc", "passwd"]
        = ["dst", "etc", "passwd"] ∧
    List.isPrefixOf ["dst"]
        (resolveEntryPath ["dst"] ["..", "..", "etc", "passwd"]) = true := by
  refine ⟨rfl, ?_⟩
  have hmem := (extractInsideRoot ["dst"] [⟨["..", "..", "etc", "passwd"], [1]⟩]).2
      ⟨["..", "..", "etc", "passwd"], [1]⟩ (by simp)
  exact (extractInsideRoot ["dst"] [⟨["..", "..", "etc", "passwd"], [1]⟩]).1 _ hmem
